import Mathlib

/-!
Shallow embedding of the simple-chat server core (Rust sources under
`src/common` and `src/server/src/chat`): the pipe-delimited wire codec,
username validation and case folding, the user registry, the broadcast
dispatcher, and the per-connection state machine.  Strings are modelled
as `List Char` (the UTF-8 byte layer is a bijection on the valid strings
these functions exchange); machine-level concerns (sockets, locks,
timeouts) appear as explicit outcome parameters of the functions that
consult them.
-/

deriving instance DecidableEq for Except

namespace Chat

/-- Strings of the embedded program: a Rust `&str` as its character sequence. -/
abbrev Str := List Char

/-- Models Rust `char::is_whitespace`: the Unicode `White_Space` property,
which holds for exactly these 25 code points. -/
def isRustWhitespace (c : Char) : Bool :=
  c.toNat ∈ [0x0009, 0x000A, 0x000B, 0x000C, 0x000D, 0x0020, 0x0085, 0x00A0,
    0x1680, 0x2000, 0x2001, 0x2002, 0x2003, 0x2004, 0x2005, 0x2006, 0x2007,
    0x2008, 0x2009, 0x200A, 0x2028, 0x2029, 0x202F, 0x205F, 0x3000]

/-- Drops leading whitespace characters (the front half of Rust `str::trim`). -/
def trimLeft : Str → Str
  | [] => []
  | c :: cs => if isRustWhitespace c then trimLeft cs else c :: cs

/-- Drops trailing whitespace characters (the back half of Rust `str::trim`). -/
def trimRight (s : Str) : Str :=
  (trimLeft s.reverse).reverse

/-- Models Rust `str::trim`: drops leading and trailing whitespace. -/
def trim (s : Str) : Str :=
  trimRight (trimLeft s)

/-- Models the decoder's use of `sz::find` on the separator followed by the
two slices `..idx` / `idx+1..`: the text before and after the first
occurrence of `sep`, or `none` when `sep` does not occur. -/
def splitFirst (sep : Char) : Str → Option (Str × Str)
  | [] => none
  | c :: cs =>
      if c = sep then some ([], cs)
      else (splitFirst sep cs).map (fun p => (c :: p.1, p.2))

/-- Models Rust `str::to_uppercase` as applied by the decoders to the command
field.  `Char.toUpper` maps ASCII `a`–`z` to `A`–`Z` and leaves other
characters unchanged; this is exact on the ASCII range, which covers every
protocol keyword the codec compares against. -/
def toUppercase (s : Str) : Str :=
  s.map Char.toUpper

/-- Field separator `|` of the wire protocol (`FIELD_SEPARATOR`). -/
def fieldSeparator : Char := '|'

/-- Keyword `OK` (`consts::SERVER_EVENT_OK`). -/
def kwOK : Str := "OK".toList

/-- Keyword `ERR` (`consts::SERVER_EVENT_ERR`). -/
def kwERR : Str := "ERR".toList

/-- Keyword `JOINED` (`consts::SERVER_EVENT_USER_JOINED`). -/
def kwJOINED : Str := "JOINED".toList

/-- Keyword `LEFT` (`consts::SERVER_EVENT_USER_LEFT`). -/
def kwLEFT : Str := "LEFT".toList

/-- Keyword `BROADCAST` (`consts::SERVER_EVENT_BROADCAST`). -/
def kwBROADCAST : Str := "BROADCAST".toList

/-- Keyword `JOIN` (`consts::CLIENT_JOIN_CMD`). -/
def kwJOIN : Str := "JOIN".toList

/-- Keyword `SEND` (`consts::CLIENT_SEND_CMD`). -/
def kwSEND : Str := "SEND".toList

/-- Keyword `LEAVE` (`consts::CLIENT_LEAVE_CMD`). -/
def kwLEAVE : Str := "LEAVE".toList

/-- Server message types (`tcp_message::ServerMessage`). -/
inductive ServerMessage where
  | Ok : ServerMessage
  | Err (reason : Str) : ServerMessage
  | UserJoined (username : Str) : ServerMessage
  | UserLeft (username : Str) : ServerMessage
  | Broadcast (username : Str) (message : Str) : ServerMessage
deriving DecidableEq

/-- Parse errors for server messages (`tcp_message::ServerParseError`).
`InvalidUtf8` exists in the source for the byte-level `from_utf8` step,
which the character-level model never fails. -/
inductive ServerParseError where
  | Empty : ServerParseError
  | InvalidUtf8 : ServerParseError
  | UnknownEventType (event : Str) : ServerParseError
  | MissingField (field : Str) : ServerParseError
deriving DecidableEq

/-- Encoding of server messages (`impl WireEncode for ServerMessage`):
keyword and fields joined with `|`. -/
def encodeServer : ServerMessage → Str
  | .Ok => kwOK
  | .Err reason => kwERR ++ fieldSeparator :: reason
  | .UserJoined username => kwJOINED ++ fieldSeparator :: username
  | .UserLeft username => kwLEFT ++ fieldSeparator :: username
  | .Broadcast username message =>
      kwBROADCAST ++ fieldSeparator :: username ++ fieldSeparator :: message

/-- Decoding of server messages (`impl WireDecode for ServerMessage`): trim,
reject empty, split at the first `|`, uppercase the event type, then bind
fields positionally; `BROADCAST` splits once more and keeps everything after
the second separator as the message. -/
def decodeServer (s : Str) : Except ServerParseError ServerMessage :=
  let trimmed := trim s
  if trimmed = [] then .error .Empty
  else
    let parts := splitFirst fieldSeparator trimmed
    let eventType := match parts with
      | some p => p.1
      | none => trimmed
    let rest : Option Str := match parts with
      | some p => some p.2
      | none => none
    let upper := toUppercase eventType
    if upper = kwOK then .ok .Ok
    else if upper = kwERR then
      match rest with
      | some reason => .ok (.Err reason)
      | none => .error (.MissingField "reason".toList)
    else if upper = kwJOINED then
      match rest with
      | some username => .ok (.UserJoined username)
      | none => .error (.MissingField "username".toList)
    else if upper = kwLEFT then
      match rest with
      | some username => .ok (.UserLeft username)
      | none => .error (.MissingField "username".toList)
    else if upper = kwBROADCAST then
      match rest with
      | some r =>
          match splitFirst fieldSeparator r with
          | some p => .ok (.Broadcast p.1 p.2)
          | none => .ok (.Broadcast r [])
      | none => .error (.MissingField "username".toList)
    else .error (.UnknownEventType eventType)

/-- Client command types (`tcp_message::ClientMessage`). -/
inductive ClientMessage where
  | Join (username : Str) : ClientMessage
  | Send (message : Str) : ClientMessage
  | Leave : ClientMessage
deriving DecidableEq

/-- Parse errors for client messages (`tcp_message::ClientParseError`). -/
inductive ClientParseError where
  | Empty : ClientParseError
  | InvalidUtf8 : ClientParseError
  | UnknownCommand (command : Str) : ClientParseError
  | MissingField (field : Str) : ClientParseError
deriving DecidableEq

/-- Encoding of client commands (`impl WireEncode for ClientMessage`). -/
def encodeClient : ClientMessage → Str
  | .Join username => kwJOIN ++ fieldSeparator :: username
  | .Send message => kwSEND ++ fieldSeparator :: message
  | .Leave => kwLEAVE

/-- Decoding of client commands (`impl WireDecode for ClientMessage`): trim,
reject empty, split at the first `|`, uppercase the command; `JOIN` and
`SEND` additionally reject an empty field. -/
def decodeClient (s : Str) : Except ClientParseError ClientMessage :=
  let trimmed := trim s
  if trimmed = [] then .error .Empty
  else
    let parts := splitFirst fieldSeparator trimmed
    let command := match parts with
      | some p => p.1
      | none => trimmed
    let rest : Option Str := match parts with
      | some p => some p.2
      | none => none
    let upper := toUppercase command
    if upper = kwJOIN then
      match rest with
      | some username =>
          if username = [] then .error (.MissingField "username".toList)
          else .ok (.Join username)
      | none => .error (.MissingField "username".toList)
    else if upper = kwSEND then
      match rest with
      | some message =>
          if message = [] then .error (.MissingField "message".toList)
          else .ok (.Send message)
      | none => .error (.MissingField "message".toList)
    else if upper = kwLEAVE then .ok .Leave
    else .error (.UnknownCommand command)

/-- Maximum username length in code points (`string::MAX_USERNAME_LEN`). -/
def MAX_USERNAME_LEN : Nat := 32

/-- The byte set `ASCII_VALID_CHARS` of `string.rs`. -/
def asciiValidChars : Str :=
  "abcdefghijklmnopqrstuvwxyzABCDEFGHIJKLMNOPQRSTUVWXYZ0123456789_".toList

/-- Models `string::is_ascii_valid_fast`: `sz::find_byte_not_from(s,
ASCII_VALID_CHARS).is_none()`, i.e. every byte of `s` lies in the set (on
the pure-ASCII strings this function is applied to, bytes and characters
coincide). -/
def is_ascii_valid_fast (s : Str) : Bool :=
  s.all (fun c => c ∈ asciiValidChars)

/-- Models Rust `char::is_alphanumeric` (Unicode Alphabetic or Number).  On
the ASCII range this is exactly ASCII letter-or-digit; outside ASCII the
Unicode property tables are abstracted by the parameter `uni`. -/
def rustIsAlphanumeric (uni : Char → Bool) (c : Char) : Bool :=
  if c.toNat ≤ 0x7F then c.isAlpha || c.isDigit else uni c

/-- Models `string::is_valid_username_char`: alphanumeric or underscore. -/
def is_valid_username_char (uni : Char → Bool) (c : Char) : Bool :=
  rustIsAlphanumeric uni c || c = '_'

/-- Models `string::is_valid_username_str`: reject empty; pure-ASCII input
takes the fast path, otherwise every character is checked individually. -/
def is_valid_username_str (uni : Char → Bool) (s : Str) : Bool :=
  if s = [] then false
  else if s.all (fun c => c.toNat ≤ 0x7F) then is_ascii_valid_fast s
  else s.all (is_valid_username_char uni)

/-- Models `string::is_too_long`: more than `MAX_USERNAME_LEN` code points. -/
def is_too_long (s : Str) : Bool :=
  s.length > MAX_USERNAME_LEN

/-- Validation verdicts (`string::ValidationResult`). -/
inductive ValidationResult where
  | Valid : ValidationResult
  | Empty : ValidationResult
  | TooLong : ValidationResult
  | InvalidChars : ValidationResult
deriving DecidableEq

/-- Models `string::validate_username`: trim, then check empty, length and
character classes in that order. -/
def validate_username (uni : Char → Bool) (s : Str) : ValidationResult :=
  let trimmed := trim s
  if trimmed = [] then .Empty
  else if is_too_long trimmed then .TooLong
  else if !(is_valid_username_str uni trimmed) then .InvalidChars
  else .Valid

/-- Per-character Unicode case folding as performed by
`sz_core::utf8_case_fold` inside `string::case_fold`: ASCII uppercase folds
to lowercase and the German sharp s folds to `ss`; characters whose folding
is themselves (digits, underscore, already-lowercase letters, CJK, ...) are
left unchanged.  Foldings of other non-ASCII letters are outside the
fragment this development evaluates. -/
def caseFoldChar (c : Char) : Str :=
  if 'A' ≤ c ∧ c ≤ 'Z' then [c.toLower]
  else if c = 'ß' then ['s', 's']
  else [c]

/-- Models `string::case_fold` (total: the `Option` in the source only
covers UTF-8 re-validation of the fold buffer, which cannot fail for the
folded form of a valid string). -/
def case_fold (s : Str) : Str :=
  s.flatMap caseFoldChar

/-- Models `string::to_lowercase`: `case_fold(s)` with a `str::to_lowercase`
fallback that is never taken since the modelled `case_fold` is total. -/
def to_lowercase (s : Str) : Str :=
  case_fold s

/-- Registry error type (`user::Error`). -/
inductive UserError where
  | UsernameEmpty : UserError
  | UsernameTooLong : UserError
  | UsernameNotAlphanumeric : UserError
  | UsernameTaken (username : Str) : UserError
  | LockTimeout : UserError
deriving DecidableEq

/-- Validated username (`user::Username`): the trimmed original text. -/
structure Username where
  text : Str
deriving DecidableEq

/-- Models `Username::new`: trim, validate, and store the trimmed text. -/
def Username.new (uni : Char → Bool) (s : Str) : Except UserError Username :=
  let trimmed := trim s
  match validate_username uni trimmed with
  | .Valid => .ok ⟨trimmed⟩
  | .Empty => .error .UsernameEmpty
  | .TooLong => .error .UsernameTooLong
  | .InvalidChars => .error .UsernameNotAlphanumeric

/-- Registered user (`user::User`): the Username plus its outbound-queue
send handle, modelled by a channel identifier. -/
structure User where
  username : Username
  tx : Nat
deriving DecidableEq

/-- Models `NormalizedKey::from_username`: the case-folded username text. -/
def normalizedKeyOf (u : Username) : Str :=
  to_lowercase u.text

/-- Registry contents: the `NormalizedKey -> User` map as an entry list
(keys are unique because insertion is rejected on an occupied key). -/
abbrev RegState := List (Str × User)

/-- Models `UserRegistry::register`: under the write lock (`lockOk` is the
outcome of `try_write_for`), reject when the normalized key is occupied,
otherwise insert and return the stored User. -/
def register (lockOk : Bool) (st : RegState) (username : Username) (tx : Nat) :
    Except UserError (User × RegState) :=
  if !lockOk then .error .LockTimeout
  else
    let key := normalizedKeyOf username
    if st.any (fun p => p.1 = key) then .error (.UsernameTaken username.text)
    else
      let u : User := ⟨username, tx⟩
      .ok (u, (key, u) :: st)

/-- Models `UserRegistry::unregister`: remove the entry at the user's
normalized key; the Bool reports whether an entry was removed. -/
def unregister (lockOk : Bool) (st : RegState) (user : User) :
    Except UserError (Bool × RegState) :=
  if !lockOk then .error .LockTimeout
  else
    let key := normalizedKeyOf user.username
    (Except.ok (st.any (fun p => p.1 = key), st.eraseP (fun p => p.1 = key)))

/-- Models `UserRegistry::broadcast`: snapshot all senders under the read
lock, excluding the user whose original `Username` equals `exclude`, then
fan out; each per-user send either succeeds or fails within its own
timeout, which the oracle `sendOk` decides per send handle, and the count
of successes is returned.  The message content does not influence the
count. -/
def broadcast (lockOk : Bool) (st : RegState) (_message : Str)
    (exclude : Option Username) (sendOk : Nat → Bool) : Except UserError Nat :=
  if !lockOk then .error .LockTimeout
  else
    let senders := ((st.map Prod.snd).filter
      (fun u => decide (exclude ≠ some u.username))).map User.tx
    .ok (senders.countP sendOk)

/-- Receive errors of the room queue (`room::RecvError`). -/
inductive RecvError where
  | Timeout : RecvError
  | Disconnected : RecvError
deriving DecidableEq

/-- One dispatcher reaction (`MessageBroker::start_dispatcher` loop body). -/
inductive DispatcherAction where
  | stop : DispatcherAction
  | dispatched (sent : Nat) : DispatcherAction
  | idle : DispatcherAction
deriving DecidableEq

/-- Models one iteration of the dispatcher loop: exit on the shutdown flag
or a disconnected room; on a received message call `registry.broadcast`
with no exclusion and `unwrap_or(0)` its result; on a receive timeout just
continue. -/
def dispatcher_step (shutdownFlag : Bool) (recv : Except RecvError Str)
    (lockOk : Bool) (st : RegState) (sendOk : Nat → Bool) : DispatcherAction :=
  if shutdownFlag then .stop
  else
    match recv with
    | .ok msg => .dispatched ((broadcast lockOk st msg none sendOk).toOption.getD 0)
    | .error .Timeout => .idle
    | .error .Disconnected => .stop

/-- The line-read cap actually used by `wait_for_input`
(`consts::MAX_CLIENT_BUFFER_SIZE`). -/
def MAX_CLIENT_BUFFER_SIZE : Nat := 10

/-- The 4096-byte constant of `consts.rs` (`MAX_CLIENT_MESSAGE_LENGTH`),
used only as the per-chunk cap of the oversized-line drain loop. -/
def MAX_CLIENT_MESSAGE_LENGTH : Nat := 4096

/-- Connection-level errors (`connection::ConnectionError`). -/
inductive ConnectionError where
  | ioError : ConnectionError
  | timeoutError : ConnectionError
  | messageTooLong : ConnectionError
deriving DecidableEq

/-- Display text of `ConnectionError::MessageTooLong`, with
`MAX_CLIENT_BUFFER_SIZE` interpolated. -/
def msgTooLongReason : Str := "message too long (max 10 bytes)".toList

/-- Models `reader.take(limit).read_until(newline, buf)`: consume pending
input bytes up to `limit`, stopping after the first newline byte, and
return the bytes placed in the buffer. -/
def readUntilNewline : Nat → List Nat → List Nat
  | 0, _ => []
  | _ + 1, [] => []
  | k + 1, b :: rest => if b = 10 then [b] else b :: readUntilNewline k rest

/-- Outcome of the socket-read arm of `wait_for_input`. -/
inductive ReadOutcome where
  | data (buf : List Nat) : ReadOutcome
  | tooLong : ReadOutcome
deriving DecidableEq

/-- Models the socket-read arm of `wait_for_input`: read one line through
`take(MAX_CLIENT_BUFFER_SIZE + 1)`; when more than `MAX_CLIENT_BUFFER_SIZE`
bytes came in, the result is the `MessageTooLong` error, otherwise
`Data(n)` with the bytes in the buffer. -/
def wait_for_input_read (pending : List Nat) : ReadOutcome :=
  let buf := readUntilNewline (MAX_CLIENT_BUFFER_SIZE + 1) pending
  if buf.length > MAX_CLIENT_BUFFER_SIZE then .tooLong else .data buf

/-- Events produced by `wait_for_input` (`connection::InputEvent`); `data`
carries the buffer contents, whose length is the `Data(n)` count. -/
inductive InputEvent where
  | data (buf : Str) : InputEvent
  | broadcastMsg (msg : Str) : InputEvent
  | shutdownSig : InputEvent
  | timeoutSig : InputEvent
  | continueSig : InputEvent
deriving DecidableEq

/-- Connection state tags (`connection::ConnectionState`); `joined` carries
the registered user's Username. -/
inductive ConnState where
  | unauthenticated : ConnState
  | joined (user : Username) : ConnState
  | disconnected : ConnState
deriving DecidableEq

/-- Observable outcome of one state-machine tick: the next state, the lines
written to this client's socket in order (each terminated by a newline and
flushed in the source), the encoded payloads forwarded to the room in
order, and whether `Joined::leave` (registry unregister) was invoked. -/
structure TickOut where
  next : ConnState
  writes : List Str
  published : List Str
  calledLeave : Bool
deriving DecidableEq

/-- Display text of `ClientParseError` (its thiserror messages). -/
def clientParseErrorMessage : ClientParseError → Str
  | .Empty => "empty message".toList
  | .InvalidUtf8 => "invalid utf-8".toList
  | .UnknownCommand c => "unknown command: ".toList ++ c
  | .MissingField f => "missing field: ".toList ++ f

/-- Room send errors (`room::Error`). -/
inductive RoomError where
  | Busy : RoomError
  | Closed : RoomError
  | Full : RoomError
  | Timeout : RoomError
  | Poisoned : RoomError
deriving DecidableEq

/-- Display text of `room::Error` (its thiserror messages). -/
def roomErrorMessage : RoomError → Str
  | .Busy => "room busy, message not sent".toList
  | .Closed => "room closed, message not sent".toList
  | .Full => "room buffer full, message not sent".toList
  | .Timeout => "room send timed out, message not sent".toList
  | .Poisoned => "room lock poisoned, message not sent".toList

/-- Models `tick_unauthenticated`.  The environment enters through `ev`
(the `wait_for_input` result, `Err` included), `join` (the outcome of
`Unauthenticated::join` for a raw username: the registered Username, or the
error rendered to a reason string) and `forward` (the outcome of
`broker.forward_to_room` per encoded payload).  A `wait_for_input` error is
returned unchanged — the caller `run_state_machine` then exits, ending the
connection — and a read timeout is converted to the fatal
`ConnectionError::Timeout`. -/
def tick_unauthenticated (ev : Except ConnectionError InputEvent)
    (join : Str → Except Str Username)
    (forward : Str → Except RoomError Unit) :
    Except ConnectionError TickOut :=
  match ev with
  | .error e => .error e
  | .ok (.broadcastMsg _) => .ok ⟨.unauthenticated, [], [], false⟩
  | .ok .shutdownSig => .ok ⟨.disconnected, [], [], false⟩
  | .ok .continueSig => .ok ⟨.unauthenticated, [], [], false⟩
  | .ok .timeoutSig => .error .timeoutError
  | .ok (.data buf) =>
      if buf = [] then .ok ⟨.disconnected, [], [], false⟩
      else
        match decodeClient buf with
        | .ok (.Join username) =>
            match join username with
            | .ok registered =>
                let joinedEvent := encodeServer (.UserJoined username)
                match forward joinedEvent with
                | .ok _ => .ok ⟨.joined registered, [encodeServer .Ok], [joinedEvent], false⟩
                | .error e =>
                    .ok ⟨.joined registered,
                      [encodeServer (.Err (roomErrorMessage e)), encodeServer .Ok], [], false⟩
            | .error reason => .ok ⟨.unauthenticated, [encodeServer (.Err reason)], [], false⟩
        | .ok _ =>
            .ok ⟨.unauthenticated, [encodeServer (.Err "must join first".toList)], [], false⟩
        | .error e =>
            .ok ⟨.unauthenticated, [encodeServer (.Err (clientParseErrorMessage e))], [], false⟩

/-- Reason string of the repeated-command reply in `handle_joined_message`
(verbatim from the source, typo included). -/
def invalidJoinedCommandReason : Str := "invlaid command for `Joined state`".toList

/-- Models `handle_joined_message`: decode the buffer; `SEND` awaits the
rate limiter (which always eventually grants a token) and forwards the
encoded Broadcast, surfacing a room error as an ERR write; `LEAVE` requests
disconnection; any other command or a decode error is answered with ERR.
Returns (should_disconnect, client writes, room publishes). -/
def handle_joined_message (user : Username) (buf : Str)
    (forward : Str → Except RoomError Unit) : Bool × List Str × List Str :=
  match decodeClient buf with
  | .ok (.Send message) =>
      let payload := encodeServer (.Broadcast user.text message)
      match forward payload with
      | .ok _ => (false, [], [payload])
      | .error e => (false, [encodeServer (.Err (roomErrorMessage e))], [])
  | .ok .Leave => (true, [], [])
  | .ok _ => (false, [encodeServer (.Err invalidJoinedCommandReason)], [])
  | .error e => (false, [encodeServer (.Err (clientParseErrorMessage e))], [])

/-- Models `tick_joined`.  A `MessageTooLong` read error drains the rest of
the line, replies ERR and stays Joined; any other read error is fatal.  A
queued broadcast is written through.  Shutdown and a zero-byte read drain
and unregister, but only the zero-byte (client close) path forwards
`LEFT|username` to the room; data is delegated to `handle_joined_message`,
and a requested disconnect (LEAVE) drains and unregisters without
forwarding anything. -/
def tick_joined (user : Username) (ev : Except ConnectionError InputEvent)
    (forward : Str → Except RoomError Unit) :
    Except ConnectionError TickOut :=
  match ev with
  | .error .messageTooLong =>
      .ok ⟨.joined user, [encodeServer (.Err msgTooLongReason)], [], false⟩
  | .error e => .error e
  | .ok (.broadcastMsg msg) => .ok ⟨.joined user, [msg], [], false⟩
  | .ok .shutdownSig => .ok ⟨.disconnected, [], [], true⟩
  | .ok .timeoutSig => .ok ⟨.joined user, [], [], false⟩
  | .ok .continueSig => .ok ⟨.joined user, [], [], false⟩
  | .ok (.data buf) =>
      if buf = [] then
        let leftEvent := encodeServer (.UserLeft user.text)
        match forward leftEvent with
        | .ok _ => .ok ⟨.disconnected, [], [leftEvent], true⟩
        | .error e =>
            .ok ⟨.disconnected, [encodeServer (.Err (roomErrorMessage e))], [], true⟩
      else
        let r := handle_joined_message user buf forward
        if r.1 then .ok ⟨.disconnected, r.2.1, r.2.2, true⟩
        else .ok ⟨.joined user, r.2.1, r.2.2, false⟩

/-- Well-formed client messages on which encode/decode roundtrip: the
spec's required fields are non-empty, and additionally the final field must
not end in a whitespace character, since the decoder trims the line before
parsing. -/
def clientWF : ClientMessage → Bool
  | .Join username => !(username = []) && trimRight username = username
  | .Send message => !(message = []) && trimRight message = message
  | .Leave => true

/-- Well-formed server messages on which encode/decode roundtrip: the final
field must not end in a whitespace character (the decoder trims the line),
and a Broadcast username must not contain the field separator (the decoder
binds the username at the first separator inside the remainder). -/
def serverWF : ServerMessage → Bool
  | .Ok => true
  | .Err reason => trimRight reason = reason
  | .UserJoined username => trimRight username = username
  | .UserLeft username => trimRight username = username
  | .Broadcast username message =>
      !(fieldSeparator ∈ username) && trimRight message = message

/-! ## Theorems -/

/-- Helper: `trimLeft` keeps a list whose head is not whitespace. -/
theorem trimLeft_cons_of_not_ws {c : Char} (cs : Str)
    (h : isRustWhitespace c = false) : trimLeft (c :: cs) = c :: cs := by
  simp [trimLeft, h]

/-- Helper: `trimLeft` never lengthens a list. -/
theorem trimLeft_length_le (s : Str) : (trimLeft s).length ≤ s.length := by
  induction s with
  | nil => simp [trimLeft]
  | cons c cs ih =>
      by_cases h : isRustWhitespace c = true
      · simpa [trimLeft, h] using Nat.le_succ_of_le ih
      · simp [trimLeft, h]

/-- Helper: a nonempty list fixed by `trimLeft` has a non-whitespace head. -/
theorem head_not_ws_of_trimLeft_fix {c : Char} {cs : Str}
    (h : trimLeft (c :: cs) = c :: cs) : isRustWhitespace c = false := by
  cases hw : isRustWhitespace c with
  | false => rfl
  | true =>
      rw [trimLeft, if_pos hw] at h
      have := trimLeft_length_le cs
      have hlen := congrArg List.length h
      simp at hlen
      omega

/-- Helper: appending on the left preserves being `trimRight`-trimmed, as
long as the right part is nonempty and itself trimmed. -/
theorem trimRight_append (l : Str) {m : Str} (hm : m ≠ [])
    (h : trimRight m = m) : trimRight (l ++ m) = l ++ m := by
  unfold trimRight at h ⊢
  have hfix : trimLeft m.reverse = m.reverse := by
    have := congrArg List.reverse h
    simpa using this
  obtain ⟨c, cs, hrev⟩ : ∃ c cs, m.reverse = c :: cs := by
    cases hr : m.reverse with
    | nil => exact absurd (by simpa using congrArg List.reverse hr) hm
    | cons c cs => exact ⟨c, cs, rfl⟩
  have hc : isRustWhitespace c = false :=
    head_not_ws_of_trimLeft_fix (hrev ▸ hfix)
  rw [List.reverse_append, hrev, List.cons_append,
    trimLeft_cons_of_not_ws _ hc, ← List.cons_append, ← hrev]
  simp

/-- Helper: splitting at the first separator of `l ++ sep :: r` recovers
`(l, r)` when `l` is separator-free. -/
theorem splitFirst_append_cons (sep : Char) (l r : Str) (h : sep ∉ l) :
    splitFirst sep (l ++ sep :: r) = some (l, r) := by
  induction l with
  | nil => simp [splitFirst]
  | cons c cs ih =>
      have hcne : ¬(c = sep) := by
        intro hc
        exact h (hc ▸ List.mem_cons_self c cs)
      have hcs : sep ∉ cs := fun hmem => h (List.mem_cons_of_mem c hmem)
      simp [splitFirst, hcne, ih hcs]

/-- Helper: an encoded `keyword|field` line is already trimmed when the
keyword starts with a non-whitespace character and the field is
`trimRight`-trimmed. -/
theorem trim_label_append (a : Char) (l f : Str) (ha : isRustWhitespace a = false)
    (hf : trimRight f = f) :
    trim ((a :: l) ++ '|' :: f) = (a :: l) ++ '|' :: f := by
  rw [trim, List.cons_append, trimLeft_cons_of_not_ws _ ha, ← List.cons_append]
  rcases eq_or_ne f [] with rfl | hne
  · exact trimRight_append (a :: l) (by simp) (by decide)
  · have hshape : (a :: l) ++ '|' :: f = ((a :: l) ++ ['|']) ++ f := by simp
    rw [hshape, trimRight_append _ hne hf, ← hshape]

/-- Helper: decoding an encoded `JOIN` with a nonempty, right-trimmed
username recovers it. -/
theorem decodeClient_encode_join (u : Str) (hne : u ≠ []) (ht : trimRight u = u) :
    decodeClient ("JOIN".toList ++ '|' :: u) = .ok (.Join u) := by
  have htrim : trim ("JOIN".toList ++ '|' :: u) = "JOIN".toList ++ '|' :: u :=
    trim_label_append 'J' "OIN".toList u (by decide) ht
  have hsplit : splitFirst fieldSeparator ("JOIN".toList ++ '|' :: u) =
      some ("JOIN".toList, u) :=
    splitFirst_append_cons fieldSeparator "JOIN".toList u (by decide)
  have hupper : toUppercase "JOIN".toList = kwJOIN := by decide
  simp only [decodeClient, htrim, hsplit, hupper]
  simp [hne]

/-- Helper: decoding an encoded `SEND` with a nonempty, right-trimmed
message recovers it. -/
theorem decodeClient_encode_send (m : Str) (hne : m ≠ []) (ht : trimRight m = m) :
    decodeClient ("SEND".toList ++ '|' :: m) = .ok (.Send m) := by
  have htrim : trim ("SEND".toList ++ '|' :: m) = "SEND".toList ++ '|' :: m :=
    trim_label_append 'S' "END".toList m (by decide) ht
  have hsplit : splitFirst fieldSeparator ("SEND".toList ++ '|' :: m) =
      some ("SEND".toList, m) :=
    splitFirst_append_cons fieldSeparator "SEND".toList m (by decide)
  have hupper : toUppercase "SEND".toList = kwSEND := by decide
  simp only [decodeClient, htrim, hsplit, hupper]
  simp [hne, kwJOIN, kwSEND]

/-- Helper: decoding an encoded `ERR` with a right-trimmed reason recovers it. -/
theorem decodeServer_encode_err (r : Str) (ht : trimRight r = r) :
    decodeServer ("ERR".toList ++ '|' :: r) = .ok (.Err r) := by
  have htrim : trim ("ERR".toList ++ '|' :: r) = "ERR".toList ++ '|' :: r :=
    trim_label_append 'E' "RR".toList r (by decide) ht
  have hsplit : splitFirst fieldSeparator ("ERR".toList ++ '|' :: r) =
      some ("ERR".toList, r) :=
    splitFirst_append_cons fieldSeparator "ERR".toList r (by decide)
  have hupper : toUppercase "ERR".toList = kwERR := by decide
  simp only [decodeServer, htrim, hsplit, hupper]
  simp [kwOK, kwERR]

/-- Helper: decoding an encoded `JOINED` with a right-trimmed username
recovers it. -/
theorem decodeServer_encode_joined (u : Str) (ht : trimRight u = u) :
    decodeServer ("JOINED".toList ++ '|' :: u) = .ok (.UserJoined u) := by
  have htrim : trim ("JOINED".toList ++ '|' :: u) = "JOINED".toList ++ '|' :: u :=
    trim_label_append 'J' "OINED".toList u (by decide) ht
  have hsplit : splitFirst fieldSeparator ("JOINED".toList ++ '|' :: u) =
      some ("JOINED".toList, u) :=
    splitFirst_append_cons fieldSeparator "JOINED".toList u (by decide)
  have hupper : toUppercase "JOINED".toList = kwJOINED := by decide
  simp only [decodeServer, htrim, hsplit, hupper]
  simp [kwOK, kwERR, kwJOINED]

/-- Helper: decoding an encoded `LEFT` with a right-trimmed username
recovers it. -/
theorem decodeServer_encode_left (u : Str) (ht : trimRight u = u) :
    decodeServer ("LEFT".toList ++ '|' :: u) = .ok (.UserLeft u) := by
  have htrim : trim ("LEFT".toList ++ '|' :: u) = "LEFT".toList ++ '|' :: u :=
    trim_label_append 'L' "EFT".toList u (by decide) ht
  have hsplit : splitFirst fieldSeparator ("LEFT".toList ++ '|' :: u) =
      some ("LEFT".toList, u) :=
    splitFirst_append_cons fieldSeparator "LEFT".toList u (by decide)
  have hupper : toUppercase "LEFT".toList = kwLEFT := by decide
  simp only [decodeServer, htrim, hsplit, hupper]
  simp [kwOK, kwERR, kwJOINED, kwLEFT]

/-- Helper: decoding an encoded `BROADCAST` whose username is
separator-free and whose message is right-trimmed recovers both fields. -/
theorem decodeServer_encode_broadcast (u m : Str) (hu : '|' ∉ u)
    (ht : trimRight m = m) :
    decodeServer ("BROADCAST".toList ++ '|' :: (u ++ '|' :: m)) =
      .ok (.Broadcast u m) := by
  have hf : trimRight (u ++ '|' :: m) = u ++ '|' :: m := by
    rcases eq_or_ne m [] with rfl | hne
    · exact trimRight_append u (by simp) (by decide)
    · have hshape : u ++ '|' :: m = (u ++ ['|']) ++ m := by simp
      rw [hshape, trimRight_append _ hne ht, ← hshape]
  have htrim : trim ("BROADCAST".toList ++ '|' :: (u ++ '|' :: m)) =
      "BROADCAST".toList ++ '|' :: (u ++ '|' :: m) :=
    trim_label_append 'B' "ROADCAST".toList (u ++ '|' :: m) (by decide) hf
  have hsplit1 : splitFirst fieldSeparator ("BROADCAST".toList ++ '|' :: (u ++ '|' :: m)) =
      some ("BROADCAST".toList, u ++ '|' :: m) :=
    splitFirst_append_cons fieldSeparator "BROADCAST".toList (u ++ '|' :: m) (by decide)
  have hsplit2 : splitFirst fieldSeparator (u ++ '|' :: m) = some (u, m) :=
    splitFirst_append_cons fieldSeparator u m hu
  have hupper : toUppercase "BROADCAST".toList = kwBROADCAST := by decide
  simp only [decodeServer, htrim, hsplit1, hupper, hsplit2]
  simp [kwOK, kwERR, kwJOINED, kwLEFT, kwBROADCAST]

/-- C4 counterexample: the roundtrip fails for well-formed messages as the
claim states it.  `Send "a "` has a non-empty message, yet the decoder
trims the trailing space; `Broadcast` with username `a|b` has its username
re-split at the first separator. -/
theorem roundtrip_counterexample :
    decodeClient (encodeClient (.Send ['a', ' '])) ≠
      Except.ok (ClientMessage.Send ['a', ' ']) ∧
    decodeServer (encodeServer (.Broadcast "a|b".toList "m".toList)) ≠
      Except.ok (ServerMessage.Broadcast "a|b".toList "m".toList) := by
  decide

/-- C4 (amended): decode is a left inverse of encode for every well-formed
message — required fields non-empty — whose final field does not end in
whitespace and, for `Broadcast`, whose username contains no `|`. -/
theorem decode_encode_roundtrip (mc : ClientMessage) (ms : ServerMessage)
    (hc : clientWF mc = true) (hs : serverWF ms = true) :
    decodeClient (encodeClient mc) = .ok mc ∧
    decodeServer (encodeServer ms) = .ok ms := by
  constructor
  · cases mc with
    | Join u =>
        simp only [clientWF, Bool.and_eq_true, Bool.not_eq_true', decide_eq_true_eq,
          decide_eq_false_iff_not] at hc
        exact decodeClient_encode_join u hc.1 hc.2
    | Send m =>
        simp only [clientWF, Bool.and_eq_true, Bool.not_eq_true', decide_eq_true_eq,
          decide_eq_false_iff_not] at hc
        exact decodeClient_encode_send m hc.1 hc.2
    | Leave => decide
  · cases ms with
    | Ok => decide
    | Err r =>
        simp only [serverWF, decide_eq_true_eq] at hs
        exact decodeServer_encode_err r hs
    | UserJoined u =>
        simp only [serverWF, decide_eq_true_eq] at hs
        exact decodeServer_encode_joined u hs
    | UserLeft u =>
        simp only [serverWF, decide_eq_true_eq] at hs
        exact decodeServer_encode_left u hs
    | Broadcast u m =>
        simp only [serverWF, Bool.and_eq_true, Bool.not_eq_true', decide_eq_true_eq,
          decide_eq_false_iff_not] at hs
        have := decodeServer_encode_broadcast u m hs.1 hs.2
        simpa [encodeServer, kwBROADCAST, fieldSeparator] using this

/-- C4 witness: the amended roundtrip applied to a concrete `SEND` and a
concrete `BROADCAST` carrying a `|` inside the message. -/
theorem decode_encode_roundtrip_witness :
    decodeClient (encodeClient (.Send "hi".toList)) =
      Except.ok (ClientMessage.Send "hi".toList) ∧
    decodeServer (encodeServer (.Broadcast "alex".toList "a|b|c".toList)) =
      Except.ok (ServerMessage.Broadcast "alex".toList "a|b|c".toList) :=
  decode_encode_roundtrip (.Send "hi".toList)
    (.Broadcast "alex".toList "a|b|c".toList) (by decide) (by decide)

/-- C1: the read arm of `wait_for_input` caps a line at
`MAX_CLIENT_BUFFER_SIZE = 10` bytes, not at the 4096 bytes the spec states:
the 12-byte line `JOIN|alice1\n` is far below `MAX_CLIENT_MESSAGE_LENGTH`
yet is rejected as message-too-long, while a 10-byte line is accepted. -/
theorem line_limit_is_ten_not_4096 :
    ("JOIN|alice1\n".toList.map Char.toNat).length = 12 ∧
    ("JOIN|alice1\n".toList.map Char.toNat).length ≤ MAX_CLIENT_MESSAGE_LENGTH ∧
    wait_for_input_read ("JOIN|alice1\n".toList.map Char.toNat) = .tooLong ∧
    wait_for_input_read ("JOIN|abcd\n".toList.map Char.toNat) =
      .data ("JOIN|abcd\n".toList.map Char.toNat) := by
  refine ⟨by decide, by decide, by decide, by decide⟩

/-- C2: evaluating `tick_joined` over the three teardown paths: on `LEAVE`
and on shutdown the connection drains and unregisters (`calledLeave`) but
forwards nothing to the room — no `LEFT|username` is published — while the
client-close (zero-byte read) path does publish it. -/
theorem tick_joined_teardown_publishes_no_left :
    tick_joined ⟨"alice".toList⟩ (.ok (.data "LEAVE".toList)) (fun _ => .ok ()) =
      Except.ok (⟨.disconnected, [], [], true⟩ : TickOut) ∧
    tick_joined ⟨"alice".toList⟩ (.ok .shutdownSig) (fun _ => .ok ()) =
      Except.ok (⟨.disconnected, [], [], true⟩ : TickOut) ∧
    tick_joined ⟨"alice".toList⟩ (.ok (.data [])) (fun _ => .ok ()) =
      Except.ok (⟨.disconnected, [],
        [encodeServer (.UserLeft "alice".toList)], true⟩ : TickOut) := by
  refine ⟨by decide, by decide, by decide⟩

/-- C3 counterexample: in the Unauthenticated state an oversized line does
not produce the `ERR|message too long` reply with the connection staying
Unauthenticated that the claim describes. -/
theorem unauth_oversized_counterexample :
    tick_unauthenticated (.error .messageTooLong) (fun u => .ok ⟨u⟩)
        (fun _ => .ok ()) ≠
      Except.ok (⟨.unauthenticated, [encodeServer (.Err msgTooLongReason)],
        [], false⟩ : TickOut) := by
  decide

/-- C3 (amended): an oversized line is fatal in the Unauthenticated state —
`tick_unauthenticated` returns the `MessageTooLong` error unchanged, which
makes `run_state_machine` exit, so no ERR is written and the connection
ends; only in the Joined state is the oversized line answered with
`ERR|message too long (max 10 bytes)`, drained, and survived. -/
theorem unauth_oversized_is_fatal (join : Str → Except Str Username)
    (forward : Str → Except RoomError Unit) (u : Username) :
    tick_unauthenticated (.error .messageTooLong) join forward =
      .error .messageTooLong ∧
    tick_joined u (.error .messageTooLong) forward =
      .ok ⟨.joined u, [encodeServer (.Err msgTooLongReason)], [], false⟩ :=
  ⟨rfl, rfl⟩

/-- C6 counterexample: a repeated `JOIN` in the Joined state is not
answered with `ERR|already joined`. -/
theorem repeated_join_counterexample :
    tick_joined ⟨"alice".toList⟩ (.ok (.data "JOIN|bob".toList))
        (fun _ => .ok ()) ≠
      Except.ok (⟨.joined ⟨"alice".toList⟩,
        [encodeServer (.Err "already joined".toList)], [], false⟩ : TickOut) := by
  decide

/-- C6 (amended): on a repeated `JOIN` the server replies with
`ERR|invlaid command for Joined state` (the catch-all reply of
`handle_joined_message`, typo included) and the connection remains
Joined. -/
theorem repeated_join_errs_and_stays_joined (u : Username) (x buf : Str)
    (forward : Str → Except RoomError Unit)
    (hbuf : buf ≠ []) (hdec : decodeClient buf = .ok (.Join x)) :
    tick_joined u (.ok (.data buf)) forward =
      .ok ⟨.joined u, [encodeServer (.Err invalidJoinedCommandReason)],
        [], false⟩ := by
  simp only [tick_joined, handle_joined_message, hdec, if_neg hbuf]
  simp

/-- C6 witness: the amended repeated-`JOIN` behaviour at a concrete
connection. -/
theorem repeated_join_errs_and_stays_joined_witness :
    tick_joined ⟨"alice".toList⟩ (.ok (.data "JOIN|bob".toList))
        (fun _ => Except.ok ()) =
      Except.ok (⟨.joined ⟨"alice".toList⟩,
        [encodeServer (.Err invalidJoinedCommandReason)], [], false⟩ : TickOut) :=
  repeated_join_errs_and_stays_joined ⟨"alice".toList⟩ "bob".toList
    "JOIN|bob".toList (fun _ => Except.ok ()) (by decide) (by decide)

/-- C5: with the registry lock acquired (no lock timeout), registering `u1`
after `u2` succeeded on an empty registry succeeds exactly when their
case-folded normalized keys differ. -/
theorem register_after_register_iff_keys_differ (uni : Char → Bool)
    (u1 u2 : Username) (tx1 tx2 : Nat) (usr2 : User) (st1 : RegState)
    (_hv1 : validate_username uni u1.text = .Valid)
    (_hv2 : validate_username uni u2.text = .Valid)
    (h2 : register true [] u2 tx2 = .ok (usr2, st1)) :
    ((register true st1 u1 tx1).isOk = true ↔
      case_fold u1.text ≠ case_fold u2.text) := by
  have hst : st1 = [(normalizedKeyOf u2, ⟨u2, tx2⟩)] := by
    have h2' := h2
    simp only [register, Bool.not_true, List.any_nil, if_neg] at h2'
    simp only [Bool.false_eq_true, if_false, reduceIte, Except.ok.injEq,
      Prod.mk.injEq] at h2'
    exact h2'.2.symm
  subst hst
  by_cases hk : normalizedKeyOf u2 = normalizedKeyOf u1
  · have hkf : case_fold u1.text = case_fold u2.text := by
      simpa [normalizedKeyOf, to_lowercase] using hk.symm
    simp [register, hk, Except.isOk, Except.toBool, hkf]
  · have hkf : case_fold u1.text ≠ case_fold u2.text := by
      intro hcontra
      exact hk (by simpa [normalizedKeyOf, to_lowercase] using hcontra.symm)
    simp [register, hk, Except.isOk, Except.toBool, hkf]

/-- C5 witness: `alice` registers after `bob` since their folded keys
differ. -/
theorem register_after_register_iff_keys_differ_witness :
    (register true [("bob".toList, ⟨⟨"bob".toList⟩, 2⟩)] ⟨"alice".toList⟩ 1).isOk
      = true :=
  (register_after_register_iff_keys_differ (fun _ => true)
      ⟨"alice".toList⟩ ⟨"bob".toList⟩ 1 2 ⟨⟨"bob".toList⟩, 2⟩
      [("bob".toList, ⟨⟨"bob".toList⟩, 2⟩)]
      (by decide) (by decide) (by decide)).mpr (by decide)

/-- Helper: a list filtered by a predicate that is false on one of its
members loses at least one element. -/
theorem length_filter_le_sub_one {α : Type} (p : α → Bool) (l : List α) (a : α)
    (ha : a ∈ l) (hpa : p a = false) : (l.filter p).length ≤ l.length - 1 := by
  induction l with
  | nil => cases ha
  | cons b t ih =>
      rcases List.mem_cons.mp ha with rfl | hat
      · rw [List.filter_cons_of_neg (by simp [hpa])]
        simpa using List.length_filter_le p t
      · by_cases hpb : p b = true
        · rw [List.filter_cons_of_pos hpb]
          have ht := ih hat
          have htne : 1 ≤ t.length :=
            List.length_pos.mpr (List.ne_nil_of_mem hat)
          simp only [List.length_cons]
          omega
        · rw [List.filter_cons_of_neg (by simp [Bool.not_eq_true] at hpb ⊢; exact hpb)]
          have ht := ih hat
          simp only [List.length_cons]
          omega

/-- C7: a successful `broadcast` reports at most as many deliveries as
there are registered users, minus one when `exclude` matches a registered
user's original Username; and with the read lock acquired, per-user send
failures (`sendOk` false) never make `broadcast` itself fail. -/
theorem broadcast_count_bounded (lockOk : Bool) (st : RegState) (message : Str)
    (exclude : Option Username) (sendOk : Nat → Bool) (n : Nat)
    (h : broadcast lockOk st message exclude sendOk = .ok n) :
    n ≤ st.length - (if st.any (fun p => some p.2.username = exclude) then 1 else 0) ∧
    (broadcast true st message exclude sendOk).isOk = true := by
  refine ⟨?_, by simp [broadcast, Except.isOk, Except.toBool]⟩
  cases lockOk with
  | false => simp [broadcast] at h
  | true =>
      have hn : n = (((st.map Prod.snd).filter
          (fun u => decide (exclude ≠ some u.username))).map User.tx).countP sendOk := by
        simp only [broadcast, Bool.not_true, Bool.false_eq_true, if_false,
          reduceIte, Except.ok.injEq] at h
        exact h.symm
      have hcount : n ≤ ((st.map Prod.snd).filter
          (fun u => decide (exclude ≠ some u.username))).length := by
        rw [hn]
        simpa using List.countP_le_length _
      by_cases hany : st.any (fun p => some p.2.username = exclude) = true
      · obtain ⟨pr, hpr, hcond⟩ := List.any_eq_true.mp hany
        have hcond' : some pr.2.username = exclude := by simpa using hcond
        have hmem : pr.2 ∈ st.map Prod.snd := List.mem_map_of_mem Prod.snd hpr
        have hfalse : (fun u : User => decide (exclude ≠ some u.username)) pr.2 = false := by
          simp [← hcond']
        have hle := length_filter_le_sub_one
          (fun u : User => decide (exclude ≠ some u.username))
          (st.map Prod.snd) pr.2 hmem hfalse
        rw [hany, if_pos rfl]
        calc n ≤ _ := hcount
          _ ≤ (st.map Prod.snd).length - 1 := hle
          _ = st.length - 1 := by rw [List.length_map]
      · rw [if_neg hany]
        calc n ≤ _ := hcount
          _ ≤ (st.map Prod.snd).length := List.length_filter_le _ _
          _ = st.length := List.length_map _ _

/-- C7 witness: a two-user registry with one excluded user delivers at most
one message. -/
theorem broadcast_count_bounded_witness :
    1 ≤ ([("alice".toList, ⟨⟨"alice".toList⟩, 0⟩),
          ("bob".toList, ⟨⟨"bob".toList⟩, 1⟩)] : RegState).length -
        (if ([("alice".toList, ⟨⟨"alice".toList⟩, 0⟩),
          ("bob".toList, ⟨⟨"bob".toList⟩, 1⟩)] : RegState).any
            (fun p => some p.2.username = some ⟨"alice".toList⟩) then 1 else 0) ∧
    (broadcast true [("alice".toList, ⟨⟨"alice".toList⟩, 0⟩),
      ("bob".toList, ⟨⟨"bob".toList⟩, 1⟩)] "m".toList
      (some ⟨"alice".toList⟩) (fun _ => true)).isOk = true :=
  broadcast_count_bounded true
    [("alice".toList, ⟨⟨"alice".toList⟩, 0⟩), ("bob".toList, ⟨⟨"bob".toList⟩, 1⟩)]
    "m".toList (some ⟨"alice".toList⟩) (fun _ => true) 1 (by decide)

/-- C9: when a `JOIN` registers successfully but forwarding the `JOINED`
event to the room fails, the server writes `ERR|reason` and then `OK` to
the joining client, publishes nothing, and the connection still becomes
Joined. -/
theorem join_forward_failure_errs_then_oks_and_joins (buf raw : Str)
    (registered : Username) (join : Str → Except Str Username)
    (forward : Str → Except RoomError Unit) (e : RoomError)
    (hbuf : buf ≠ []) (hdec : decodeClient buf = .ok (.Join raw))
    (hjoin : join raw = .ok registered)
    (hfwd : forward (encodeServer (.UserJoined raw)) = .error e) :
    tick_unauthenticated (.ok (.data buf)) join forward =
      .ok ⟨.joined registered,
        [encodeServer (.Err (roomErrorMessage e)), encodeServer .Ok],
        [], false⟩ := by
  simp only [tick_unauthenticated, if_neg hbuf, hdec, hjoin, hfwd]

/-- C9 witness: the two-write join handshake at a concrete connection whose
room forward times out. -/
theorem join_forward_failure_errs_then_oks_and_joins_witness :
    tick_unauthenticated (.ok (.data "JOIN|alice".toList))
        (fun u => Except.ok ⟨u⟩) (fun _ => Except.error RoomError.Timeout) =
      Except.ok (⟨.joined ⟨"alice".toList⟩,
        [encodeServer (.Err (roomErrorMessage .Timeout)), encodeServer .Ok],
        [], false⟩ : TickOut) :=
  join_forward_failure_errs_then_oks_and_joins "JOIN|alice".toList
    "alice".toList ⟨"alice".toList⟩ (fun u => Except.ok ⟨u⟩)
    (fun _ => Except.error RoomError.Timeout) RoomError.Timeout
    (by decide) (by decide) (by decide) (by decide)

/-- C10: when `registry.broadcast` fails for a message the dispatcher took
from the room queue, the dispatcher's `unwrap_or(0)` turns the failure into
zero deliveries and the loop action is `dispatched 0` — it neither stops,
nor retries, nor surfaces the error anywhere. -/
theorem dispatcher_drops_message_on_broadcast_error (msg : Str)
    (lockOk : Bool) (st : RegState) (sendOk : Nat → Bool) (e : UserError)
    (herr : broadcast lockOk st msg none sendOk = .error e) :
    dispatcher_step false (.ok msg) lockOk st sendOk = .dispatched 0 := by
  simp [dispatcher_step, herr, Except.toOption]

/-- C10 witness: a lock timeout during broadcast makes the dispatcher drop
the message and continue. -/
theorem dispatcher_drops_message_on_broadcast_error_witness :
    dispatcher_step false (.ok "m".toList) false
      [("bob".toList, ⟨⟨"bob".toList⟩, 1⟩)] (fun _ => true) = .dispatched 0 :=
  dispatcher_drops_message_on_broadcast_error "m".toList false
    [("bob".toList, ⟨⟨"bob".toList⟩, 1⟩)] (fun _ => true) .LockTimeout (by decide)

/-- Helper: over the 128 ASCII code points, membership in
`ASCII_VALID_CHARS` coincides with letter-or-digit-or-underscore. -/
theorem ascii_char_class_eval : ∀ n < 128,
    (decide (Char.ofNat n ∈ asciiValidChars) =
      ((Char.ofNat n).isAlpha || (Char.ofNat n).isDigit ||
        decide (Char.ofNat n = '_'))) := by
  decide

/-- Helper: the same per-character fact phrased for an ASCII character. -/
theorem ascii_char_class (c : Char) (h : c.toNat < 128) :
    decide (c ∈ asciiValidChars) =
      (c.isAlpha || c.isDigit || decide (c = '_')) := by
  have hc := ascii_char_class_eval c.toNat h
  rwa [Char.ofNat_toNat] at hc

/-- C8: on nonempty pure-ASCII input the fast byte-set check
`is_ascii_valid_fast` accepts exactly when every character satisfies the
general path's per-character predicate (Unicode-alphanumeric or
underscore), and `is_valid_username_str` indeed takes the fast path there:
the two paths return identical results whatever the non-ASCII
alphanumeric oracle `uni` is. -/
theorem ascii_fast_path_matches_general_path (uni : Char → Bool) (s : Str)
    (hne : s ≠ []) (hascii : ∀ c ∈ s, c.toNat ≤ 0x7F) :
    (is_ascii_valid_fast s = true ↔
      ∀ c ∈ s, is_valid_username_char uni c = true) ∧
    is_valid_username_str uni s = is_ascii_valid_fast s := by
  constructor
  · rw [is_ascii_valid_fast, List.all_eq_true]
    constructor
    · intro h c hc
      have h127 : c.toNat < 128 := by have := hascii c hc; omega
      have hcls := ascii_char_class c h127
      have hmem := h c hc
      rw [is_valid_username_char, rustIsAlphanumeric, if_pos (hascii c hc)]
      rw [← hcls]
      exact hmem
    · intro h c hc
      have h127 : c.toNat < 128 := by have := hascii c hc; omega
      have hcls := ascii_char_class c h127
      have hch := h c hc
      rw [is_valid_username_char, rustIsAlphanumeric, if_pos (hascii c hc)] at hch
      rw [hcls]
      exact hch
  · have hall : s.all (fun c => decide (c.toNat ≤ 0x7F)) = true :=
      List.all_eq_true.mpr (fun c hc => decide_eq_true (hascii c hc))
    rw [is_valid_username_str, if_neg hne, if_pos hall]

/-- C8 witness: the two validation paths agree on the ASCII username
`john`. -/
theorem ascii_fast_path_matches_general_path_witness :
    ((is_ascii_valid_fast "john".toList = true ↔
      ∀ c ∈ "john".toList, is_valid_username_char (fun _ => false) c = true) ∧
    is_valid_username_str (fun _ => false) "john".toList =
      is_ascii_valid_fast "john".toList) :=
  ascii_fast_path_matches_general_path (fun _ => false) "john".toList
    (by decide) (by decide)

end Chat
